import Mathlib

/-!
Verification of the forum-bot topic-gathering workflow.

Shallow embedding of:
- `src/listeners/data_store.py` (`TopicGatheringStore`): the session state
  machine with lazy, time-driven expiry and the per-user vote ledger.
- `src/integrations/time_slots.py` (`TimeSlotManager`): projection of a
  recurring weekly slot onto a concrete future date.
- `src/integrations/calendar_handler.py` (`CalendarEventHandler`): the
  scheduling pass that turns winning topics into calendar events.

Modelling conventions:
- Wall-clock time is a natural number of minutes; `datetime.datetime.now()`
  becomes an explicit `now : Nat` argument to every operation that reads the
  clock, and `datetime.timedelta(minutes=d)` becomes `+ d`.
- Python methods mutate `self`; here every operation returns
  `(value, Store)`, the value first, the updated store second.
- `defaultdict(set)` for the vote ledger becomes a total function
  `String → Finset Nat` whose default is `∅`.
- The fields `current_timer`, `current_voting_timer`, `calendar_events` and
  `user_conversations` of the Python class are omitted: they hold timer
  handles and caches that no modelled operation reads; the timer `cancel`
  calls inside `stop_gathering`/`stop_voting` touch only those handles.
- Fallible Python code (`raise`, `None` returns) is modelled with `Option`.
-/

/-- Topic entry, from `TopicMessage` in `src/listeners/data_store.py`:
author id, text, submission timestamp, and the mutable vote tally. -/
structure TopicMessage where
  user_id : String
  text : String
  timestamp : Nat
  votes : Nat
deriving DecidableEq, Repr

instance : Inhabited TopicMessage := ⟨⟨"", "", 0, 0⟩⟩

/-- Mutable state of `TopicGatheringStore` (`src/listeners/data_store.py`,
`__init__` plus the `voting_duration_minutes` attribute that
`start_gathering` creates; it is absent — `none` — until then). -/
structure Store where
  active : Bool
  end_time : Option Nat
  channel_id : Option String
  messages : List TopicMessage
  voting_active : Bool
  voting_end_time : Option Nat
  user_votes : String → Finset Nat
  voting_duration_minutes : Option Nat
  events_created : Bool

/-- Initial store built by `TopicGatheringStore.__init__`. -/
def initStore : Store :=
  { active := false
    end_time := none
    channel_id := none
    messages := []
    voting_active := false
    voting_end_time := none
    user_votes := fun _ => ∅
    voting_duration_minutes := none
    events_created := false }

/-- `TopicGatheringStore.start_gathering`: unconditionally activates
gathering, clears topics, ledger and event state, sets the deadline and
returns it. -/
def start_gathering (s : Store) (now : Nat) (duration_minutes : Nat)
    (voting_duration_minutes : Nat) (channel_id : Option String) :
    Nat × Store :=
  let e := now + duration_minutes
  (e, { s with
          active := true
          voting_active := false
          end_time := some e
          channel_id := channel_id
          messages := []
          user_votes := fun _ => ∅
          events_created := false
          voting_duration_minutes := some voting_duration_minutes })

/-- `TopicGatheringStore.stop_gathering`: deactivates gathering, clears the
deadline, and returns `(len(messages), channel_id, messages)`. -/
def stop_gathering (s : Store) :
    (Nat × Option String × List TopicMessage) × Store :=
  ((s.messages.length, s.channel_id, s.messages),
   { s with active := false, end_time := none })

/-- `TopicGatheringStore.is_active`: lazy expiry — when the gathering
deadline has passed, the query itself flips `active` off before answering
`false`. -/
def is_active (s : Store) (now : Nat) : Bool × Store :=
  if s.active = false then (false, s)
  else
    match s.end_time with
    | some e => if now > e then (false, { s with active := false }) else (true, s)
    | none => (true, s)

/-- `TopicGatheringStore.add_message`: appends a topic (timestamped `now`,
zero votes) when gathering is active, after forcing the lazy expiry check. -/
def add_message (s : Store) (now : Nat) (user_id : String) (text : String) :
    Bool × Store :=
  match is_active s now with
  | (false, s1) => (false, s1)
  | (true, s1) =>
      (true, { s1 with messages := s1.messages ++ [⟨user_id, text, now, 0⟩] })

/-- `TopicGatheringStore.check_expiry`: when gathering is active and the
deadline has passed, stops gathering and returns the announcement payload;
otherwise returns `none` and leaves the store unchanged. -/
def check_expiry (s : Store) (now : Nat) :
    Option (Nat × Option String × List TopicMessage) × Store :=
  if s.active then
    match s.end_time with
    | some e =>
        if now > e then
          let r := stop_gathering s
          (some r.1, r.2)
        else (none, s)
    | none => (none, s)
  else (none, s)

/-- `TopicGatheringStore.start_voting`: unconditionally activates voting,
sets the voting deadline and returns it. -/
def start_voting (s : Store) (now : Nat) (duration_minutes : Nat) :
    Nat × Store :=
  let e := now + duration_minutes
  (e, { s with voting_active := true, voting_end_time := some e })

/-- `TopicGatheringStore.stop_voting`: deactivates voting, clears the
voting deadline, and returns `(channel_id, messages)`. -/
def stop_voting (s : Store) : (Option String × List TopicMessage) × Store :=
  ((s.channel_id, s.messages),
   { s with voting_active := false, voting_end_time := none })

/-- `TopicGatheringStore.is_voting_active`: lazy expiry for the voting
phase, symmetric to `is_active`. -/
def is_voting_active (s : Store) (now : Nat) : Bool × Store :=
  if s.voting_active = false then (false, s)
  else
    match s.voting_end_time with
    | some e =>
        if now > e then (false, { s with voting_active := false })
        else (true, s)
    | none => (true, s)

/-- Increment the vote tally of the message at position `i`, modelling the
in-place `self.messages[topic_index].votes += 1`. -/
def bumpVotes : List TopicMessage → Nat → List TopicMessage
  | [], _ => []
  | m :: ms, 0 => { m with votes := m.votes + 1 } :: ms
  | m :: ms, i + 1 => m :: bumpVotes ms i

/-- `TopicGatheringStore.add_vote`: forces the lazy voting-expiry check,
rejects out-of-range indices (the Python index is a possibly negative
`int`), then records the vote in the user's set and increments the topic's
tally. -/
def add_vote (s : Store) (now : Nat) (user_id : String) (topic_index : Int) :
    Bool × Store :=
  match is_voting_active s now with
  | (false, s1) => (false, s1)
  | (true, s1) =>
      if topic_index < 0 ∨ topic_index ≥ (s1.messages.length : Int) then
        (false, s1)
      else
        let i := topic_index.toNat
        (true,
         { s1 with
             user_votes := fun u =>
               if u = user_id then insert i (s1.user_votes u)
               else s1.user_votes u
             messages := bumpVotes s1.messages i })

/-- `TopicGatheringStore.get_vote_count`: `0` for an out-of-range index,
otherwise the stored tally. -/
def get_vote_count (s : Store) (topic_index : Int) : Nat :=
  if topic_index < 0 ∨ topic_index ≥ (s.messages.length : Int) then 0
  else (s.messages.getD topic_index.toNat default).votes

/-- Vote-count order used by both `get_sorted_topics` and the scheduling
pass: `a` before `b` when `a` has at least as many votes. -/
def voteGE (a b : TopicMessage) : Prop := b.votes ≤ a.votes

instance : DecidableRel voteGE := fun a b => Nat.decLe b.votes a.votes

instance : IsTotal TopicMessage voteGE := ⟨fun a b => Nat.le_total b.votes a.votes⟩

instance : IsTrans TopicMessage voteGE := ⟨fun _ _ _ h1 h2 => Nat.le_trans h2 h1⟩

/-- Python's `sorted(topics, key=lambda x: x.votes, reverse=True)`.
`sorted` is specified to be a stable sort, and a stable sort's output is
uniquely determined by the key order and the input order, so the stable
`List.insertionSort` is extensionally the same function. -/
def sortByVotesDesc (l : List TopicMessage) : List TopicMessage :=
  List.insertionSort voteGE l

/-- `TopicGatheringStore.get_sorted_topics`. -/
def get_sorted_topics (s : Store) : List TopicMessage :=
  sortByVotesDesc s.messages

/-! ## Operations and reachability

The store operations named by the specification, as a step relation. Each
step carries its own `now`, modelling the scattered `datetime.now()` calls;
return values are discarded.
-/

/-- One store operation, as listed in the specification's lifecycle. -/
inductive Op where
  | startGathering (duration_minutes voting_duration_minutes : Nat)
      (channel_id : Option String)
  | submitTopic (user_id text : String)
  | checkExpiry
  | startVoting (duration_minutes : Nat)
  | castVote (user_id : String) (topic_index : Int)
  | stopGathering
  | stopVoting
deriving DecidableEq

/-- Whether an operation is a `startGathering` (starts a new session). -/
def isStartGathering : Op → Bool
  | .startGathering _ _ _ => true
  | _ => false

/-- Apply one operation to the store, discarding the returned value. -/
def applyOp (s : Store) (now : Nat) : Op → Store
  | .startGathering d vd ch => (start_gathering s now d vd ch).2
  | .submitTopic u t => (add_message s now u t).2
  | .checkExpiry => (check_expiry s now).2
  | .startVoting d => (start_voting s now d).2
  | .castVote u i => (add_vote s now u i).2
  | .stopGathering => (stop_gathering s).2
  | .stopVoting => (stop_voting s).2

/-- Run a list of timed operations left to right. -/
def runOps (s : Store) : List (Op × Nat) → Store
  | [] => s
  | (op, now) :: rest => runOps (applyOp s now op) rest

/-- States reachable from the initial store by arbitrary operation
sequences, each step at an arbitrary time. -/
inductive Reachable : Store → Prop where
  | init : Reachable initStore
  | step (s : Store) (now : Nat) (op : Op) :
      Reachable s → Reachable (applyOp s now op)

/-- Guard under which the command layer (`forum_command.py`,
`handle_expiry`) invokes an operation: `start_voting` is only ever called
right after `stop_gathering` or a successful `check_expiry`, i.e. with
gathering inactive; every other operation is invoked unconditionally. -/
def opAllowed (s : Store) : Op → Prop
  | .startVoting _ => s.active = false
  | _ => True

/-- States reachable when `start_voting` is only invoked with gathering
inactive, as at all of its call sites. -/
inductive GReachable : Store → Prop where
  | init : GReachable initStore
  | step (s : Store) (now : Nat) (op : Op) :
      GReachable s → opAllowed s op → GReachable (applyOp s now op)

/-! ## Time-slot resolution (`src/integrations/time_slots.py`)

Time is minutes since an epoch midnight that falls on a Monday, so that a
day number `d` has weekday `d % 7` with `0 = Monday`, matching
`datetime.date.weekday()`. A day is 1440 minutes.
-/

/-- Configured recurring slot, the JSON dict
`{day_of_week, start_time, end_time}` with `"HH:MM"` strings. -/
structure Slot where
  day_of_week : String
  start_time : String
  end_time : String
deriving DecidableEq

/-- Python's `str.split(sep)` on a character list. -/
def splitOnChar (sep : Char) : List Char → List (List Char)
  | [] => [[]]
  | c :: cs =>
    let r := splitOnChar sep cs
    if c = sep then [] :: r
    else
      match r with
      | [] => [[c]]
      | x :: xs => (c :: x) :: xs

/-- Decimal digit value of a character, `none` for a non-digit. -/
def digitVal (c : Char) : Option Nat :=
  if '0' ≤ c ∧ c ≤ '9' then some (c.toNat - '0'.toNat) else none

/-- Python's `int(s)` restricted to plain digit strings: `none` on the
empty string or any non-digit character. -/
def natOfChars : List Char → Option Nat
  | [] => none
  | cs =>
      cs.foldl
        (fun acc c =>
          match acc, digitVal c with
          | some n, some d => some (n * 10 + d)
          | _, _ => none)
        (some 0)

/-- `TimeSlotManager._parse_time`: `map(int, time_str.split(":"))` unpacked
into exactly two components; `none` models the `ValueError` otherwise. -/
def parse_time (t : String) : Option (Nat × Nat) :=
  match (splitOnChar ':' t.data).map natOfChars with
  | [some h, some m] => some (h, m)
  | _ => none

/-- The `day_mapping` dict of `get_datetime_for_slot` (`0 = Monday`). -/
def day_mapping (d : String) : Option Nat :=
  if d = "Monday" then some 0
  else if d = "Tuesday" then some 1
  else if d = "Wednesday" then some 2
  else if d = "Thursday" then some 3
  else if d = "Friday" then some 4
  else if d = "Saturday" then some 5
  else if d = "Sunday" then some 6
  else none

/-- `datetime.datetime(y, m, d, hour, minute)` on day number `day`:
validates the time of day (the constructor raises `ValueError` otherwise,
modelled by `none`) and yields minutes since the epoch. -/
def mk_datetime (day hour minute : Nat) : Option Nat :=
  if hour < 24 ∧ minute < 60 then some (day * 1440 + hour * 60 + minute)
  else none

/-- `TimeSlotManager.get_datetime_for_slot`: project a weekly slot onto the
next occurrence of its weekday strictly after today — when today already is
that weekday, seven days ahead. `none` models any raised `ValueError`
(unknown weekday, unparsable time, invalid time of day). -/
def get_datetime_for_slot (slot : Slot) (now : Nat) :
    Option (Nat × Nat) :=
  let today := now / 1440
  match day_mapping slot.day_of_week with
  | none => none
  | some target_day =>
    let current_weekday := today % 7
    let d0 := (((target_day : Int) - (current_weekday : Int)) % 7).toNat
    let days_ahead := if d0 = 0 then 7 else d0
    let event_day := today + days_ahead
    match parse_time slot.start_time, parse_time slot.end_time with
    | some (sh, sm), some (eh, em) =>
        match mk_datetime event_day sh sm, mk_datetime event_day eh em with
        | some st, some en => some (st, en)
        | _, _ => none
    | _, _ => none

/-! ## Scheduling pass (`src/integrations/calendar_handler.py`)

External nondeterminism — `random.choice` in `get_next_slot`, and the
Microsoft Graph gateway — is supplied by oracles indexed by the loop
iteration: `slot_choice k` picks the slot index, `gateway k` is the
gateway's answer for iteration `k` (`none` for a thrown error or a non-2xx
response, both of which make the Python loop skip the topic), and
`event_link_lookup k` is the `get_event_link` fallback string. The
vote ledger argument `votes_by_user` is the Python dict as an ordered
association list with distinct keys.
-/

/-- Successful gateway response: the `id` and `webLink` fields of the JSON
body, each possibly absent. -/
structure GraphEventResult where
  id : Option String
  webLink : Option String
deriving DecidableEq

/-- Environment of one scheduling pass: configuration plus oracles for the
external collaborators. -/
structure SchedEnv where
  slots : List Slot
  slot_choice : Nat → Nat
  gateway : Nat → Option GraphEventResult
  event_link_lookup : Nat → String
  now : Nat
  top_topics_count : Nat

/-- One entry of the `created_events` result list. -/
structure CreatedEvent where
  topic : TopicMessage
  event_id : Option String
  event_link : String
  start_time : Nat
  end_time : Nat
  day : String
  attendees : List String
deriving DecidableEq

/-- `TimeSlotManager.get_next_slot`: `none` when no slots are configured,
otherwise a `random.choice` of the configured slots. -/
def get_next_slot (env : SchedEnv) (k : Nat) : Option Slot :=
  if env.slots.isEmpty then none
  else some (env.slots.getD (env.slot_choice k % env.slots.length) ⟨"", "", ""⟩)

/-- Attendee list computed for one winning topic: the users whose recorded
indices contain `topics.index(topic)` — the index of the first topic equal
to it — in ledger order, with the author appended when not already a
voter. -/
def attendee_user_ids (topics : List TopicMessage)
    (votes_by_user : List (String × List Nat)) (topic : TopicMessage) :
    List String :=
  let topic_index := topics.indexOf topic
  let voters :=
    (votes_by_user.filter (fun p => decide (topic_index ∈ p.2))).map Prod.fst
  if topic.user_id ∈ voters then voters else voters ++ [topic.user_id]

/-- The `event_result.get("webLink") or get_event_link(...)` fallback:
Python `or` takes the second operand when the first is `None` or empty. -/
def resolveEventLink (env : SchedEnv) (k : Nat) (res : GraphEventResult) :
    String :=
  match res.webLink with
  | some l => if l = "" then env.event_link_lookup k else l
  | none => env.event_link_lookup k

/-- Body of one iteration of the loop in `create_events_for_winning_topics`:
`none` when the topic is skipped (no slot configured, slot resolution
raised, gateway failed), `some` the recorded event dict otherwise. -/
def process_topic (env : SchedEnv) (topics : List TopicMessage)
    (votes_by_user : List (String × List Nat)) (k : Nat)
    (topic : TopicMessage) : Option CreatedEvent :=
  let attendees := attendee_user_ids topics votes_by_user topic
  match get_next_slot env k with
  | none => none
  | some slot =>
    match get_datetime_for_slot slot env.now with
    | none => none
    | some (st, en) =>
      match env.gateway k with
      | none => none
      | some res =>
          some { topic := topic
                 event_id := res.id
                 event_link := resolveEventLink env k res
                 start_time := st
                 end_time := en
                 day := slot.day_of_week
                 attendees := attendees }

/-- The `for topic in top_topics` loop of
`create_events_for_winning_topics`, with the `created_events` accumulator;
every skip path (`continue`, caught exception, falsy gateway result) moves
to the next topic without touching the accumulator. -/
def create_events_loop (env : SchedEnv) (topics : List TopicMessage)
    (votes_by_user : List (String × List Nat)) :
    List TopicMessage → Nat → List CreatedEvent → List CreatedEvent
  | [], _, acc => acc
  | topic :: rest, k, acc =>
    let attendees := attendee_user_ids topics votes_by_user topic
    match get_next_slot env k with
    | none => create_events_loop env topics votes_by_user rest (k + 1) acc
    | some slot =>
      match get_datetime_for_slot slot env.now with
      | none => create_events_loop env topics votes_by_user rest (k + 1) acc
      | some (st, en) =>
        match env.gateway k with
        | none => create_events_loop env topics votes_by_user rest (k + 1) acc
        | some res =>
            create_events_loop env topics votes_by_user rest (k + 1)
              (acc ++ [{ topic := topic
                         event_id := res.id
                         event_link := resolveEventLink env k res
                         start_time := st
                         end_time := en
                         day := slot.day_of_week
                         attendees := attendees }])

/-- `CalendarEventHandler.create_events_for_winning_topics`: sort by votes
descending, take the configured top count, and process each winning topic
in ranked order. -/
def create_events_for_winning_topics (env : SchedEnv)
    (topics : List TopicMessage)
    (votes_by_user : List (String × List Nat)) : List CreatedEvent :=
  let sorted_topics := sortByVotesDesc topics
  let top_topics := sorted_topics.take env.top_topics_count
  create_events_loop env topics votes_by_user top_topics 0 []

/-! ## Helper lemmas about the store operations -/

theorem is_active_of_true (s : Store) (now : Nat)
    (h : (is_active s now).1 = true) : is_active s now = (true, s) := by
  unfold is_active at h ⊢
  split at h
  next => simp at h
  next hfalse =>
    cases he : s.end_time with
    | none => simp [he, hfalse]
    | some e =>
      simp only [he] at h ⊢
      split at h
      next => simp at h
      next hgt => simp [hgt, hfalse]

theorem is_active_of_inactive (s : Store) (now : Nat)
    (h : s.active = false) : is_active s now = (false, s) := by
  unfold is_active
  simp [h]

theorem is_active_fst_active (s : Store) (now : Nat)
    (h : (is_active s now).1 = true) : s.active = true := by
  by_cases ha : s.active = false
  · rw [is_active_of_inactive s now ha] at h
    simp at h
  · simpa using ha

theorem is_voting_active_of_true (s : Store) (now : Nat)
    (h : (is_voting_active s now).1 = true) :
    is_voting_active s now = (true, s) := by
  unfold is_voting_active at h ⊢
  split at h
  next => simp at h
  next hfalse =>
    cases he : s.voting_end_time with
    | none => simp [he, hfalse]
    | some e =>
      simp only [he] at h ⊢
      split at h
      next => simp at h
      next hgt => simp [hgt, hfalse]

theorem is_voting_active_of_inactive (s : Store) (now : Nat)
    (h : s.voting_active = false) : is_voting_active s now = (false, s) := by
  unfold is_voting_active
  simp [h]

theorem is_voting_active_fst_voting (s : Store) (now : Nat)
    (h : (is_voting_active s now).1 = true) : s.voting_active = true := by
  by_cases ha : s.voting_active = false
  · rw [is_voting_active_of_inactive s now ha] at h
    simp at h
  · simpa using ha

theorem is_voting_active_snd_active (s : Store) (now : Nat) :
    ((is_voting_active s now).2).active = s.active := by
  unfold is_voting_active
  split
  · rfl
  · cases he : s.voting_end_time with
    | none => rfl
    | some e =>
      simp only
      split
      · rfl
      · rfl

theorem check_expiry_fst_none_of_inactive (s : Store) (now : Nat)
    (h : s.active = false) : (check_expiry s now).1 = none := by
  simp [check_expiry, h]

theorem applyOp_preserves_inactive (s : Store) (now : Nat) (op : Op)
    (hop : isStartGathering op = false) (h : s.active = false) :
    (applyOp s now op).active = false := by
  cases op with
  | startGathering d vd ch => simp [isStartGathering] at hop
  | submitTopic u t =>
      simp [applyOp, add_message, is_active_of_inactive s now h, h]
  | checkExpiry => simp [applyOp, check_expiry, h]
  | startVoting d => simpa [applyOp, start_voting] using h
  | castVote u i =>
      rcases hv : is_voting_active s now with ⟨b, s1⟩
      have hs1 : s1.active = s.active := by
        have := is_voting_active_snd_active s now
        rw [hv] at this
        exact this
      cases b with
      | false =>
          show (add_vote s now u i).2.active = false
          simp [add_vote, hv, hs1, h]
      | true =>
          show (add_vote s now u i).2.active = false
          simp only [add_vote, hv]
          split
          · simpa [hs1] using h
          · simpa [hs1] using h
  | stopGathering => rfl
  | stopVoting => simpa [applyOp, stop_voting] using h

theorem runOps_preserves_inactive (s : Store) (ops : List (Op × Nat))
    (hops : ∀ p ∈ ops, isStartGathering p.1 = false)
    (h : s.active = false) : (runOps s ops).active = false := by
  induction ops generalizing s with
  | nil => exact h
  | cons p rest ih =>
      rcases p with ⟨op, now⟩
      exact ih (applyOp s now op)
        (fun q hq => hops q (List.mem_cons_of_mem _ hq))
        (applyOp_preserves_inactive s now op
          (hops ⟨op, now⟩ (List.mem_cons_self _ _)) h)

/-! ## C1: the expiry payload is produced exactly once -/

/-- C1: when gathering is active and `now` is past the deadline, the first
`check_expiry` call returns the `(count, channel, topics)` payload and
deactivates the phase, and every later `check_expiry` call — after any
sequence of store operations that does not start a new session — returns
`none`. -/
theorem checkExpiry_payload_exactly_once (s : Store) (e now : Nat)
    (h1 : s.active = true) (h2 : s.end_time = some e) (h3 : e < now)
    (ops : List (Op × Nat))
    (hops : ∀ p ∈ ops, isStartGathering p.1 = false) (now2 : Nat) :
    check_expiry s now =
      (some (s.messages.length, s.channel_id, s.messages),
       { s with active := false, end_time := none })
    ∧ (check_expiry (runOps (check_expiry s now).2 ops) now2).1 = none := by
  have hfst : check_expiry s now =
      (some (s.messages.length, s.channel_id, s.messages),
       { s with active := false, end_time := none }) := by
    simp [check_expiry, h1, h2, h3, stop_gathering]
  refine ⟨hfst, ?_⟩
  have hina : ((check_expiry s now).2).active = false := by
    rw [hfst]
  exact check_expiry_fst_none_of_inactive _ now2
    (runOps_preserves_inactive _ ops hops hina)

/-- Concrete gathering-phase store whose deadline (minute 5) has passed. -/
def storeGatherExpired : Store :=
  { active := true
    end_time := some 5
    channel_id := some "C"
    messages := [⟨"U1", "topic-a", 1, 0⟩]
    voting_active := false
    voting_end_time := none
    user_votes := fun _ => ∅
    voting_duration_minutes := some 15
    events_created := false }

/-- Witness for C1 at minute 10, with a second `check_expiry` and a
`stop_voting` in between. -/
theorem checkExpiry_payload_exactly_once_witness :
    check_expiry storeGatherExpired 10 =
      (some (1, some "C", [⟨"U1", "topic-a", 1, 0⟩]),
       { storeGatherExpired with active := false, end_time := none })
    ∧ (check_expiry (runOps (check_expiry storeGatherExpired 10).2
          [(Op.checkExpiry, 11), (Op.stopVoting, 12)]) 13).1 = none :=
  checkExpiry_payload_exactly_once storeGatherExpired 5 10 rfl rfl
    (by decide) _ (by decide) 13

/-! ## C4: castVote after the voting deadline -/

/-- C4: when voting was started but `now` is past the voting deadline,
`add_vote` rejects and records nothing, and the call itself performs the
lazy expiry transition (`voting_active` flips off); the ledger, tallies and
everything else are untouched. -/
theorem castVote_after_deadline_rejected (s : Store) (e now : Nat)
    (u : String) (t : Int) (h1 : s.voting_active = true)
    (h2 : s.voting_end_time = some e) (h3 : e < now) :
    add_vote s now u t = (false, { s with voting_active := false }) := by
  have hv : is_voting_active s now =
      (false, { s with voting_active := false }) := by
    unfold is_voting_active
    simp [h1, h2, h3]
  simp [add_vote, hv]

/-- Concrete voting-phase store whose voting deadline (minute 5) has
passed, with no expiry check run since. -/
def storeVotingExpired : Store :=
  { active := false
    end_time := none
    channel_id := some "C"
    messages := [⟨"U1", "topic-a", 1, 0⟩]
    voting_active := true
    voting_end_time := some 5
    user_votes := fun _ => ∅
    voting_duration_minutes := some 15
    events_created := false }

/-- Witness for C4: a vote for the (in-range) topic 0 at minute 10. -/
theorem castVote_after_deadline_rejected_witness :
    add_vote storeVotingExpired 10 "U2" 0 =
      (false, { storeVotingExpired with voting_active := false }) :=
  castVote_after_deadline_rejected storeVotingExpired 5 10 "U2" 0 rfl rfl
    (by decide)

/-! ## Frame lemmas for a successful vote -/

theorem bumpVotes_length (l : List TopicMessage) (i : Nat) :
    (bumpVotes l i).length = l.length := by
  induction l generalizing i with
  | nil => rfl
  | cons m ms ih =>
      cases i with
      | zero => rfl
      | succ j => simp [bumpVotes, ih]

theorem bumpVotes_getD_ne (l : List TopicMessage) (i j : Nat) (h : j ≠ i) :
    (bumpVotes l i).getD j default = l.getD j default := by
  induction l generalizing i j with
  | nil => rfl
  | cons m ms ih =>
      cases i with
      | zero =>
          cases j with
          | zero => exact absurd rfl h
          | succ j2 => simp [bumpVotes]
      | succ i2 =>
          cases j with
          | zero => simp [bumpVotes]
          | succ j2 =>
              simp only [bumpVotes, List.getD_cons_succ]
              exact ih i2 j2 (fun hh => h (by rw [hh]))

theorem bumpVotes_getD_lt (l : List TopicMessage) (i : Nat)
    (h : i < l.length) :
    (bumpVotes l i).getD i default =
      { l.getD i default with votes := (l.getD i default).votes + 1 } := by
  induction l generalizing i with
  | nil => simp at h
  | cons m ms ih =>
      cases i with
      | zero => simp [bumpVotes]
      | succ i2 =>
          simp only [bumpVotes, List.getD_cons_succ]
          exact ih i2 (by simpa using h)

/-- Inversion of a successful `add_vote`: the index was in range and the
result is exactly the ledger-and-tally update of the unchanged store. -/
theorem add_vote_success_eq (s : Store) (now : Nat) (u : String) (t : Int)
    (h : (add_vote s now u t).1 = true) :
    0 ≤ t ∧ t < (s.messages.length : Int) ∧
    add_vote s now u t =
      (true,
       { s with
           user_votes := fun u2 =>
             if u2 = u then insert t.toNat (s.user_votes u2)
             else s.user_votes u2
           messages := bumpVotes s.messages t.toNat }) := by
  by_cases hb : (is_voting_active s now).1 = true
  · have hs : is_voting_active s now = (true, s) :=
      is_voting_active_of_true s now hb
    by_cases hr : t < 0 ∨ t ≥ (s.messages.length : Int)
    · rw [show add_vote s now u t = (false, s) by
        simp only [add_vote, hs]
        rw [if_pos hr]] at h
      simp at h
    · have hb2 : 0 ≤ t ∧ t < (s.messages.length : Int) := by
        push_neg at hr
        exact hr
      refine ⟨hb2.1, hb2.2, ?_⟩
      simp only [add_vote, hs]
      rw [if_neg hr]
  · have hfalse : (add_vote s now u t).1 = false := by
      rcases hw : is_voting_active s now with ⟨b, s1⟩
      rw [hw] at hb
      cases b with
      | false => simp [add_vote, hw]
      | true => simp at hb
    rw [hfalse] at h
    simp at h

/-- Frame of a successful `castVote(u, t)`: only user `u`'s vote set (which
gains `t`) and topic `t`'s tally (which gains one) change; every other
user's set, every other topic's entry, the topic list length, the phase
flags, the deadlines, the channel reference and the rest of the store are
unchanged. -/
def AddVoteFrame (s : Store) (now : Nat) (u : String) (t : Int) : Prop :=
  let s2 := (add_vote s now u t).2
  s2.active = s.active ∧
  s2.voting_active = s.voting_active ∧
  s2.end_time = s.end_time ∧
  s2.voting_end_time = s.voting_end_time ∧
  s2.channel_id = s.channel_id ∧
  s2.voting_duration_minutes = s.voting_duration_minutes ∧
  s2.events_created = s.events_created ∧
  (∀ u2, u2 ≠ u → s2.user_votes u2 = s.user_votes u2) ∧
  s2.user_votes u = insert t.toNat (s.user_votes u) ∧
  s2.messages.length = s.messages.length ∧
  (∀ j, j ≠ t.toNat →
    s2.messages.getD j default = s.messages.getD j default) ∧
  (s2.messages.getD t.toNat default) =
    { s.messages.getD t.toNat default with
        votes := (s.messages.getD t.toNat default).votes + 1 }

/-- C10: every successful `add_vote` call satisfies the frame property. -/
theorem addVote_success_frame (s : Store) (now : Nat) (u : String)
    (t : Int) (h : (add_vote s now u t).1 = true) :
    AddVoteFrame s now u t := by
  obtain ⟨h0, hlen, heq⟩ := add_vote_success_eq s now u t h
  unfold AddVoteFrame
  rw [heq]
  have hlt : t.toNat < s.messages.length := by omega
  refine ⟨rfl, rfl, rfl, rfl, rfl, rfl, rfl, ?_, ?_, ?_, ?_, ?_⟩
  · intro u2 hu2
    simp [hu2]
  · simp
  · exact bumpVotes_length s.messages t.toNat
  · intro j hj
    exact bumpVotes_getD_ne s.messages t.toNat j hj
  · exact bumpVotes_getD_lt s.messages t.toNat hlt

/-- Concrete voting-phase store (deadline minute 100) with two topics. -/
def storeVotingLive : Store :=
  { active := false
    end_time := none
    channel_id := some "C"
    messages := [⟨"U1", "topic-a", 1, 0⟩, ⟨"U2", "topic-b", 2, 0⟩]
    voting_active := true
    voting_end_time := some 100
    user_votes := fun _ => ∅
    voting_duration_minutes := some 15
    events_created := false }

/-- Witness for C10: `U3` successfully votes for topic 1 at minute 10. -/
theorem addVote_success_frame_witness : AddVoteFrame storeVotingLive 10 "U3" 1 :=
  addVote_success_frame storeVotingLive 10 "U3" 1 (by decide)

/-! ## C2: the vote tally is not idempotent (defect in the source) -/

/-- Store after `U3` votes once for topic 1 of `storeVotingLive`. -/
def storeAfterOneVote : Store := (add_vote storeVotingLive 10 "U3" 1).2

/-- Store after `U3` votes for topic 1 a second time. -/
def storeAfterTwoVotes : Store := (add_vote storeAfterOneVote 11 "U3" 1).2

/-- C2: `add_vote` is not idempotent per `(user, topic)` pair. Both calls
are accepted; the stored vote-set membership is unchanged by the repeat
(the `defaultdict` set absorbs it), but `self.messages[t].votes += 1` runs
unconditionally, so the tally double-counts: 2 after the repeat instead of
the 1 the specification requires. This matches the defect the
specification flags in its design notes. -/
theorem addVote_double_vote_double_counts :
    (add_vote storeVotingLive 10 "U3" 1).1 = true
    ∧ (add_vote storeAfterOneVote 11 "U3" 1).1 = true
    ∧ storeAfterTwoVotes.user_votes "U3" = storeAfterOneVote.user_votes "U3"
    ∧ get_vote_count storeAfterOneVote 1 = 1
    ∧ get_vote_count storeAfterTwoVotes 1 = 2 := by
  refine ⟨by decide, by decide, by decide, by decide, by decide⟩

/-! ## C3: startGathering is rejected when a session is active -/

/-- The `start` branch of `forum_command_callback`
(`src/listeners/commands/forum_command.py`): the guard
`if store.is_active() or store.is_voting_active(): respond(...); return`
(with Python's short-circuit `or`) followed by `store.start_gathering`;
`none` models the rejection reply. -/
def start_command (s : Store) (now : Nat)
    (gathering_duration voting_duration : Nat) (channel_id : Option String) :
    Option Nat × Store :=
  match is_active s now with
  | (true, s1) => (none, s1)
  | (false, s1) =>
    match is_voting_active s1 now with
    | (true, s2) => (none, s2)
    | (false, s2) =>
      let r := start_gathering s2 now gathering_duration voting_duration
        channel_id
      (some r.1, r.2)

/-- C3: in a phase-coherent state (the two active flags are not both set —
the invariant of every state the command layer can reach) whose phase is
not idle — gathering or voting reports active — the start command is
rejected and the store is returned unchanged: topics, ledger, deadlines,
channel reference and phase are all untouched. -/
theorem startGathering_rejected_when_not_idle (s : Store) (now : Nat)
    (gd vd : Nat) (ch : Option String)
    (hinv : s.active = false ∨ s.voting_active = false)
    (hcond : (is_active s now).1 = true ∨ (is_voting_active s now).1 = true) :
    start_command s now gd vd ch = (none, s) := by
  by_cases ha : (is_active s now).1 = true
  · have h1 := is_active_of_true s now ha
    simp [start_command, h1]
  · have hb : (is_voting_active s now).1 = true := hcond.resolve_left ha
    have hv := is_voting_active_of_true s now hb
    have hvact : s.voting_active = true := is_voting_active_fst_voting s now hb
    have hact : s.active = false := by
      rcases hinv with h | h
      · exact h
      · rw [h] at hvact
        simp at hvact
    have h1 := is_active_of_inactive s now hact
    simp [start_command, h1, hv]

/-- Concrete gathering-phase store, deadline minute 100 still ahead. -/
def storeGatherLive : Store :=
  { active := true
    end_time := some 100
    channel_id := some "C"
    messages := []
    voting_active := false
    voting_end_time := none
    user_votes := fun _ => ∅
    voting_duration_minutes := some 15
    events_created := false }

/-- Witness for C3: a `start` command at minute 1 while gathering is live. -/
theorem startGathering_rejected_when_not_idle_witness :
    start_command storeGatherLive 1 30 15 (some "C2") =
      (none, storeGatherLive) :=
  startGathering_rejected_when_not_idle storeGatherLive 1 30 15 (some "C2")
    (Or.inr rfl) (Or.inl (by decide))

/-! ## C5: gathering and voting are never both active -/

/-- Store produced by `start_gathering` at minute 0 (deadline 30) followed
by a bare `start_voting` at minute 0 (deadline 15). -/
def storeBothActive : Store :=
  applyOp (applyOp initStore 0 (Op.startGathering 30 15 (some "C"))) 0
    (Op.startVoting 15)

/-- Counterexample to C5 as stated: over arbitrary sequences of the
store's own operations the exclusivity invariant fails, because
`start_voting` does not check or clear the gathering flags. Calling
`startVoting` directly after `startGathering` reaches a state where, at
minute 1 (before either deadline), both `is_active` and
`is_voting_active` report `true`. -/
theorem bothActive_reachable :
    Reachable storeBothActive
    ∧ (is_active storeBothActive 1).1 = true
    ∧ (is_voting_active storeBothActive 1).1 = true :=
  ⟨Reachable.step _ 0 _ (Reachable.step _ 0 _ Reachable.init),
   by decide, by decide⟩

theorem applyOp_preserves_exclusive (s : Store) (now : Nat) (op : Op)
    (hop : opAllowed s op)
    (h : s.active = false ∨ s.voting_active = false) :
    (applyOp s now op).active = false
    ∨ (applyOp s now op).voting_active = false := by
  cases op with
  | startGathering d vd ch => right; rfl
  | submitTopic u t =>
      show (add_message s now u t).2.active = false
        ∨ (add_message s now u t).2.voting_active = false
      rcases ha : is_active s now with ⟨b, s1⟩
      have hflags : s1.active = s.active ∨ s1.active = false := by
        unfold is_active at ha
        split at ha
        · cases ha
          left
          rfl
        · revert ha
          split
          · split
            · intro ha
              cases ha
              right
              rfl
            · intro ha
              cases ha
              left
              rfl
          · intro ha
            cases ha
            left
            rfl
      have hvflag : s1.voting_active = s.voting_active := by
        unfold is_active at ha
        split at ha
        · cases ha
          rfl
        · revert ha
          split
          · split
            · intro ha
              cases ha
              rfl
            · intro ha
              cases ha
              rfl
          · intro ha
            cases ha
            rfl
      cases b with
      | false =>
          simp only [add_message, ha]
          rcases hflags with hf | hf
          · rw [hf, hvflag]
            exact h
          · left
            exact hf
      | true =>
          simp only [add_message, ha]
          rcases hflags with hf | hf
          · show s1.active = false ∨ s1.voting_active = false
            rw [hf, hvflag]
            exact h
          · left
            exact hf
  | checkExpiry =>
      show (check_expiry s now).2.active = false
        ∨ (check_expiry s now).2.voting_active = false
      unfold check_expiry
      split
      · split
        · split
          · left
            rfl
          · exact h
        · exact h
      · exact h
  | startVoting d =>
      left
      show s.active = false
      exact hop
  | castVote u i =>
      show (add_vote s now u i).2.active = false
        ∨ (add_vote s now u i).2.voting_active = false
      rcases hv : is_voting_active s now with ⟨b, s1⟩
      have hs1 : s1 = s ∨ s1 = { s with voting_active := false } := by
        unfold is_voting_active at hv
        split at hv
        · cases hv
          left
          rfl
        · revert hv
          split
          · split
            · intro hv
              cases hv
              right
              rfl
            · intro hv
              cases hv
              left
              rfl
          · intro hv
            cases hv
            left
            rfl
      have hgoal : s1.active = false ∨ s1.voting_active = false := by
        rcases hs1 with h1 | h1
        · rw [h1]
          exact h
        · right
          rw [h1]
      cases b with
      | false =>
          simp only [add_vote, hv]
          exact hgoal
      | true =>
          simp only [add_vote, hv]
          split
          · exact hgoal
          · exact hgoal
  | stopGathering =>
      left
      rfl
  | stopVoting =>
      right
      rfl

/-- Exclusivity invariant of guarded reachability: the two raw flags are
never both set. -/
theorem greachable_exclusive (s : Store) (h : GReachable s) :
    s.active = false ∨ s.voting_active = false := by
  induction h with
  | init => left; rfl
  | step s now op _ hop ih => exact applyOp_preserves_exclusive s now op hop ih

/-- C5 amended: in every state reachable from the initial store when
`start_voting` is invoked only with gathering inactive — which is how all
of its call sites invoke it, right after `stop_gathering` or a successful
`check_expiry` — `is_active` and `is_voting_active` never both answer
`true` at any single instant. -/
theorem phases_never_both_active (s : Store) (h : GReachable s) (now : Nat) :
    ¬((is_active s now).1 = true ∧ (is_voting_active s now).1 = true) := by
  rintro ⟨ha, hv⟩
  have h1 := is_active_fst_active s now ha
  have h2 := is_voting_active_fst_voting s now hv
  rcases greachable_exclusive s h with h3 | h3
  · rw [h3] at h1
    simp at h1
  · rw [h3] at h2
    simp at h2

/-- Witness for amended C5 at a reachable voting-phase state: start at
minute 0, stop gathering at minute 1, start voting at minute 1. -/
theorem phases_never_both_active_witness :
    ¬((is_active (applyOp (applyOp (applyOp initStore 0
          (Op.startGathering 30 15 (some "C"))) 1 Op.stopGathering) 1
          (Op.startVoting 15)) 2).1 = true
      ∧ (is_voting_active (applyOp (applyOp (applyOp initStore 0
          (Op.startGathering 30 15 (some "C"))) 1 Op.stopGathering) 1
          (Op.startVoting 15)) 2).1 = true) :=
  phases_never_both_active _
    (GReachable.step _ 1 (Op.startVoting 15)
      (GReachable.step _ 1 Op.stopGathering
        (GReachable.step _ 0 (Op.startGathering 30 15 (some "C"))
          GReachable.init trivial) trivial) rfl) 2

/-! ## C6: slot resolution lands strictly in the future on the slot's weekday -/

theorem day_mapping_lt (d : String) (t : Nat) (h : day_mapping d = some t) :
    t < 7 := by
  unfold day_mapping at h
  repeat' split at h
  all_goals first
    | (injection h with h2; omega)
    | exact Option.noConfusion h

theorem mk_datetime_some (d hh mm x : Nat) (h : mk_datetime d hh mm = some x) :
    hh < 24 ∧ mm < 60 ∧ x = d * 1440 + hh * 60 + mm := by
  unfold mk_datetime at h
  split at h
  next hcond =>
    injection h with h2
    exact ⟨hcond.1, hcond.2, h2.symm⟩
  next => exact Option.noConfusion h

/-- C6: whenever `get_datetime_for_slot` succeeds on a slot with a valid
weekday, the returned start is strictly later than `now`, falls on the
slot's weekday, and when today already is that weekday the start lands
exactly seven days ahead — never later the same day. -/
theorem slot_resolution_future_on_weekday (slot : Slot) (now st en target : Nat)
    (hres : get_datetime_for_slot slot now = some (st, en))
    (hday : day_mapping slot.day_of_week = some target) :
    now < st ∧ st / 1440 % 7 = target
    ∧ (now / 1440 % 7 = target → st / 1440 = now / 1440 + 7) := by
  have htlt : target < 7 := day_mapping_lt _ _ hday
  cases hps : parse_time slot.start_time with
  | none =>
    simp only [get_datetime_for_slot, hday, hps] at hres
    exact Option.noConfusion hres
  | some p =>
    rcases p with ⟨sh, sm⟩
    cases hpe : parse_time slot.end_time with
    | none =>
      simp only [get_datetime_for_slot, hday, hps, hpe] at hres
      exact Option.noConfusion hres
    | some q =>
      rcases q with ⟨eh, em⟩
      simp only [get_datetime_for_slot, hday, hps, hpe] at hres
      split at hres
      next st2 en2 hm1 hm2 =>
        obtain ⟨h24, h60, hst⟩ := mk_datetime_some _ _ _ _ hm1
        have hpair : st2 = st ∧ en2 = en := by
          simpa using hres
        obtain ⟨rfl, rfl⟩ := hpair
        split at hst
        next hc => omega
        next hc => omega
      next => exact Option.noConfusion hres

/-- The slot `{Monday, 10:00, 11:00}`. -/
def mondaySlot : Slot := ⟨"Monday", "10:00", "11:00"⟩

/-- Witness for C6: resolving the Monday slot at minute 0 of a Monday
yields minute 10680 = day 7 (next Monday), 10:00. -/
theorem slot_resolution_future_on_weekday_witness :
    (0 : Nat) < 10680 ∧ 10680 / 1440 % 7 = 0
    ∧ ((0 : Nat) / 1440 % 7 = 0 → 10680 / 1440 = 0 / 1440 + 7) :=
  slot_resolution_future_on_weekday mondaySlot 0 10680 10740 0 (by decide)
    (by decide)

/-! ## C7: the topic ordering is descending by tally and stable -/

theorem filter_orderedInsert_votes (x : TopicMessage)
    (l : List TopicMessage) (v : Nat) :
    (List.orderedInsert voteGE x l).filter (fun t => t.votes == v) =
      if x.votes = v then x :: l.filter (fun t => t.votes == v)
      else l.filter (fun t => t.votes == v) := by
  induction l with
  | nil =>
      simp only [List.orderedInsert, List.filter_cons, List.filter_nil]
      by_cases hx : x.votes = v
      · simp [hx]
      · simp [hx]
  | cons y ys ih =>
      simp only [List.orderedInsert]
      by_cases hxy : voteGE x y
      · rw [if_pos hxy]
        simp only [List.filter_cons]
        by_cases hx : x.votes = v
        · simp [hx]
        · simp [hx]
      · rw [if_neg hxy]
        have hlt : x.votes < y.votes := by
          unfold voteGE at hxy
          omega
        simp only [List.filter_cons]
        by_cases hy : y.votes = v
        · have hx : ¬ x.votes = v := by omega
          simp [hy, hx, ih]
        · simp [hy, ih]

theorem filter_sortByVotesDesc (l : List TopicMessage) (v : Nat) :
    (sortByVotesDesc l).filter (fun t => t.votes == v) =
      l.filter (fun t => t.votes == v) := by
  induction l with
  | nil => rfl
  | cons x xs ih =>
      show (List.orderedInsert voteGE x
        (List.insertionSort voteGE xs)).filter (fun t => t.votes == v) = _
      rw [filter_orderedInsert_votes]
      unfold sortByVotesDesc at ih
      by_cases hx : x.votes = v
      · simp [hx, ih, List.filter_cons]
      · simp [hx, ih, List.filter_cons]

/-- C7: the topic ordering used by `get_sorted_topics` and by the
scheduling pass (both are `sortByVotesDesc`) sorts by tally descending — it
is a permutation of the input that is `Sorted` for the at-least-as-many-
votes order — and it is stable: for every tally value `v`, the topics with
tally `v` appear in the output exactly in their original submission
order. -/
theorem sortTopics_desc_and_stable (l : List TopicMessage) (v : Nat) :
    List.Sorted voteGE (sortByVotesDesc l)
    ∧ (sortByVotesDesc l).Perm l
    ∧ (sortByVotesDesc l).filter (fun t => t.votes == v) =
        l.filter (fun t => t.votes == v) :=
  ⟨List.sorted_insertionSort voteGE l, List.perm_insertionSort voteGE l,
   filter_sortByVotesDesc l v⟩

/-! ## C9: per-topic failures only skip that topic -/

theorem create_events_loop_cons (env : SchedEnv) (topics : List TopicMessage)
    (votes : List (String × List Nat)) (topic : TopicMessage)
    (rest : List TopicMessage) (k : Nat) (acc : List CreatedEvent) :
    create_events_loop env topics votes (topic :: rest) k acc =
      create_events_loop env topics votes rest (k + 1)
        (acc ++ (process_topic env topics votes k topic).toList) := by
  cases hs : get_next_slot env k with
  | none => simp [create_events_loop, process_topic, hs]
  | some slot =>
      cases hd : get_datetime_for_slot slot env.now with
      | none => simp [create_events_loop, process_topic, hs, hd]
      | some p =>
          rcases p with ⟨st, en⟩
          cases hg : env.gateway k with
          | none => simp [create_events_loop, process_topic, hs, hd, hg]
          | some res => simp [create_events_loop, process_topic, hs, hd, hg]

theorem create_events_loop_eq (env : SchedEnv) (topics : List TopicMessage)
    (votes : List (String × List Nat)) (l : List TopicMessage) (k : Nat)
    (acc : List CreatedEvent) :
    create_events_loop env topics votes l k acc =
      acc ++ (List.enumFrom k l).filterMap
        (fun p => process_topic env topics votes p.1 p.2) := by
  induction l generalizing k acc with
  | nil => simp [create_events_loop, List.enumFrom]
  | cons topic rest ih =>
      rw [create_events_loop_cons, ih]
      cases hp : process_topic env topics votes k topic with
      | none => simp [List.enumFrom, List.filterMap_cons, hp]
      | some ev => simp [List.enumFrom, List.filterMap_cons, hp]

/-- C9: the scheduling pass processes the selected (top-ranked) topics
independently: its result is exactly the `filterMap` of the per-topic step
over the selected topics in ranked order, so a topic skipped by a failure
(no slot configured, slot resolution raised, or gateway failure) removes
only its own entry — every other selected topic is still attempted exactly
once, the pass never aborts, and the result holds exactly the successful
events, never more than the configured top count. -/
theorem scheduling_pass_isolates_failures (env : SchedEnv)
    (topics : List TopicMessage) (votes : List (String × List Nat)) :
    create_events_for_winning_topics env topics votes =
      (List.enumFrom 0
        ((sortByVotesDesc topics).take env.top_topics_count)).filterMap
        (fun p => process_topic env topics votes p.1 p.2)
    ∧ (create_events_for_winning_topics env topics votes).length
        ≤ env.top_topics_count := by
  have h := create_events_loop_eq env topics votes
    ((sortByVotesDesc topics).take env.top_topics_count) 0 []
  have h2 : create_events_for_winning_topics env topics votes =
      (List.enumFrom 0
        ((sortByVotesDesc topics).take env.top_topics_count)).filterMap
        (fun p => process_topic env topics votes p.1 p.2) := by
    simpa [create_events_for_winning_topics] using h
  refine ⟨h2, ?_⟩
  rw [h2]
  exact le_trans
    (le_trans (List.length_filterMap_le _ _)
      (le_of_eq List.enumFrom_length))
    (List.length_take_le env.top_topics_count _)

/-! ## C8: attendees of a scheduled event -/

theorem process_topic_some_fields (env : SchedEnv)
    (topics : List TopicMessage) (votes : List (String × List Nat))
    (k : Nat) (topic : TopicMessage) (ev : CreatedEvent)
    (h : process_topic env topics votes k topic = some ev) :
    ev.topic = topic ∧ ev.attendees = attendee_user_ids topics votes topic := by
  cases hs : get_next_slot env k with
  | none =>
      simp only [process_topic, hs] at h
      exact Option.noConfusion h
  | some slot =>
      cases hd : get_datetime_for_slot slot env.now with
      | none =>
          simp only [process_topic, hs, hd] at h
          exact Option.noConfusion h
      | some p =>
          rcases p with ⟨st, en⟩
          cases hg : env.gateway k with
          | none =>
              simp only [process_topic, hs, hd, hg] at h
              exact Option.noConfusion h
          | some res =>
              simp only [process_topic, hs, hd, hg, Option.some.injEq] at h
              rw [← h]
              exact ⟨rfl, rfl⟩

theorem attendee_user_ids_mem (topics : List TopicMessage)
    (votes : List (String × List Nat)) (topic : TopicMessage) (u : String) :
    u ∈ attendee_user_ids topics votes topic ↔
      ((∃ p ∈ votes, p.1 = u ∧ topics.indexOf topic ∈ p.2)
        ∨ u = topic.user_id) := by
  unfold attendee_user_ids
  dsimp only
  have hv : ∀ w, w ∈ (votes.filter
      (fun p => decide (topics.indexOf topic ∈ p.2))).map Prod.fst ↔
      ∃ p ∈ votes, p.1 = w ∧ topics.indexOf topic ∈ p.2 := by
    intro w
    simp only [List.mem_map, List.mem_filter, decide_eq_true_eq]
    constructor
    · rintro ⟨p, ⟨hp, hidx⟩, rfl⟩
      exact ⟨p, hp, rfl, hidx⟩
    · rintro ⟨p, hp, rfl, hidx⟩
      exact ⟨p, ⟨hp, hidx⟩, rfl⟩
  by_cases hmem : topic.user_id ∈ (votes.filter
      (fun p => decide (topics.indexOf topic ∈ p.2))).map Prod.fst
  · rw [if_pos hmem]
    constructor
    · intro hu
      exact Or.inl ((hv u).mp hu)
    · rintro (h | rfl)
      · exact (hv u).mpr h
      · exact hmem
  · rw [if_neg hmem]
    simp only [List.mem_append, List.mem_singleton]
    constructor
    · rintro (hu | rfl)
      · exact Or.inl ((hv u).mp hu)
      · exact Or.inr rfl
    · rintro (h | rfl)
      · exact Or.inl ((hv u).mpr h)
      · exact Or.inr rfl

theorem attendee_user_ids_author_once (topics : List TopicMessage)
    (votes : List (String × List Nat)) (topic : TopicMessage)
    (hkeys : (votes.map Prod.fst).Nodup) :
    (attendee_user_ids topics votes topic).count topic.user_id = 1 := by
  unfold attendee_user_ids
  dsimp only
  have hnd : ((votes.filter
      (fun p => decide (topics.indexOf topic ∈ p.2))).map Prod.fst).Nodup :=
    hkeys.sublist ((List.filter_sublist votes).map Prod.fst)
  by_cases hmem : topic.user_id ∈ (votes.filter
      (fun p => decide (topics.indexOf topic ∈ p.2))).map Prod.fst
  · rw [if_pos hmem]
    exact List.count_eq_one_of_mem hnd hmem
  · rw [if_neg hmem]
    rw [List.count_append, List.count_eq_zero_of_not_mem hmem]
    simp

/-- C8 amended: in a scheduling pass, every created event's attendee list
is exactly the voters of `topics.index(topic)` — the index of the *first*
topic equal to the selected one, which is the topic's own index whenever
topics are pairwise distinct, but not for a duplicated topic — together
with the topic's author, who appears exactly once even without a
self-vote (the ledger's keys are distinct, as Python dict keys are). -/
theorem event_attendees_voters_union_author (topics : List TopicMessage)
    (votes : List (String × List Nat))
    (hkeys : (votes.map Prod.fst).Nodup) :
    (∀ env : SchedEnv, ∀ ev ∈ create_events_for_winning_topics env topics votes,
        ev.attendees = attendee_user_ids topics votes ev.topic)
    ∧ (∀ topic u, u ∈ attendee_user_ids topics votes topic ↔
        ((∃ p ∈ votes, p.1 = u ∧ topics.indexOf topic ∈ p.2)
          ∨ u = topic.user_id))
    ∧ (∀ topic, (attendee_user_ids topics votes topic).count topic.user_id
        = 1) := by
  refine ⟨?_, fun topic u => attendee_user_ids_mem topics votes topic u,
    fun topic => attendee_user_ids_author_once topics votes topic hkeys⟩
  intro env ev hev
  unfold create_events_for_winning_topics at hev
  rw [create_events_loop_eq] at hev
  simp only [List.nil_append, List.mem_filterMap] at hev
  obtain ⟨⟨k, t⟩, _, hp⟩ := hev
  obtain ⟨htop, hatt⟩ := process_topic_some_fields env topics votes k t ev hp
  rw [hatt, htop]

/-- A topic value that will occur twice in the counterexample list. -/
def dupTopic : TopicMessage := ⟨"A", "x", 0, 0⟩

/-- Scheduling environment for the C8 counterexample: one Monday slot,
a gateway that always succeeds, top count 2. -/
def cexSchedEnv : SchedEnv :=
  { slots := [mondaySlot]
    slot_choice := fun _ => 0
    gateway := fun _ => some ⟨some "E1", some "L1"⟩
    event_link_lookup := fun _ => ""
    now := 0
    top_topics_count := 2 }

/-- Counterexample to C8 as stated: with the duplicated topic list
`[T, T]` (author `A`) and a ledger in which `B` voted exactly for index 1,
both copies are selected (`K = 2`), so the claim requires the event for the
index-1 copy to carry attendees `{A, B}`; but `topics.index(topic)`
resolves both copies to index 0, so both created events carry attendees
`["A"]` and `B` appears in neither. -/
theorem duplicate_topics_attendees_mismatch :
    (create_events_for_winning_topics cexSchedEnv [dupTopic, dupTopic]
        [("B", [1])]).length = 2
    ∧ (∀ ev ∈ create_events_for_winning_topics cexSchedEnv
        [dupTopic, dupTopic] [("B", [1])], ev.attendees = ["A"]) := by
  refine ⟨by decide, by decide⟩

/-- Witness for amended C8 at the singleton topic list `[dupTopic]` with
`B` voting for index 0. -/
theorem event_attendees_voters_union_author_witness :
    (∀ env : SchedEnv, ∀ ev ∈ create_events_for_winning_topics env
        [dupTopic] [("B", [0])],
        ev.attendees = attendee_user_ids [dupTopic] [("B", [0])] ev.topic)
    ∧ (∀ topic u, u ∈ attendee_user_ids [dupTopic] [("B", [0])] topic ↔
        ((∃ p ∈ [("B", [0])], p.1 = u
            ∧ List.indexOf topic [dupTopic] ∈ p.2)
          ∨ u = topic.user_id))
    ∧ (∀ topic, (attendee_user_ids [dupTopic] [("B", [0])] topic).count
        topic.user_id = 1) :=
  event_attendees_voters_union_author [dupTopic] [("B", [0])] (by decide)
